import Mathlib

/-!
# Verification of the per-site economy tick (`world/src/sim2/mod.rs`)

Shallow embedding of `tick_site_economy` and its helpers. Commodity (`Good`)
and industry (`Labor`) enumerations, the recipe catalog (`get_orders`,
`get_productivity`), per-good decay rates and the replenishment model live in
`site::economy`, outside the provided sources; they are modelled here as
parameters, following the specification, which treats them as external
collaborators. `f32` arithmetic is idealized as real arithmetic; real-number
division is total with `x / 0 = 0`, and the one place where the IEEE behaviour
of a division by zero is observable through the code (the value-rationalisation
gate) is embedded with its float outcomes made explicit (`rawValueF`).
A `panic!` is modelled as `Except.error` carrying the value the panic message
names.
-/

namespace Sim2

noncomputable section

/-- `const MONTH: f32 = 30;` -/
def MONTH : ℝ := 30

/-- `const YEAR: f32 = 12 * MONTH;` -/
def YEAR : ℝ := 12 * MONTH

/-- `const TICK_PERIOD: f32 = 3 * MONTH;` -/
def TICK_PERIOD : ℝ := 3 * MONTH

/-- `const NATURAL_BIRTH_RATE: f32 = 0.05;` -/
def NATURAL_BIRTH_RATE : ℝ := 0.05

/-- `const DEATH_RATE: f32 = 0.005;` -/
def DEATH_RATE : ℝ := 0.005

/-- The mutable economic state of a site (`site.economy`), with the fields
read or written by `tick_site_economy`. `Good` and `Labor` are the closed
enumerations of commodities and industries; `values` is the smoothed scarcity
signal, `None` meaning that the good carries no meaningful price signal. -/
structure Economy (Good Labor : Type) where
  pop : ℝ
  stocks : Good → ℝ
  values : Good → Option ℝ
  prices : Good → ℝ
  surplus : Good → ℝ
  marginal_surplus : Good → ℝ
  labors : Labor → ℝ
  productivity : Labor → ℝ
  yields : Labor → ℝ

/-- Modelled from the spec: the external collaborators of the tick. The
Recipe Catalog supplies `orders` (per order group, keyed by `Labor` or none
for base population consumption, the required input goods with quantities)
and `productivity` (per `Labor`, its output good and base rate); `decay_rate`
is the static per-good decay; `replenish` is the external replenishment model,
invoked with the current world time and acting on the stocks; `food` is the
distinguished `Good::Food` used by the demographic update. -/
structure Catalog (Good Labor : Type) where
  orders : List (Option Labor × List (Good × ℝ))
  productivity : Labor → Good × ℝ
  decay_rate : Good → ℝ
  replenish : ℝ → (Good → ℝ) → (Good → ℝ)
  food : Good

variable {Good Labor : Type}

/-- `scale = (labors[labor] if grouped by a labor else 1) * pop`
(lines 108-112 and 186-190 of `sim2/mod.rs`). -/
def orderScale (e : Economy Good Labor) (olab : Option Labor) : ℝ :=
  (match olab with
    | some l => e.labors l
    | none => 1) * e.pop

/-- Demand aggregation (lines 106-116): for each order group,
`demand[good] += amount * scale`. The accumulated map sends `g` to the sum of
`amount * scale` over all entries for `g`. -/
def computedDemand [DecidableEq Good] (e : Economy Good Labor)
    (orders : List (Option Labor × List (Good × ℝ))) (g : Good) : ℝ :=
  (orders.map (fun grp =>
    (grp.2.map (fun p => if p.1 = g then p.2 * orderScale e grp.1 else 0)).sum)).sum

/-- Supply aggregation (lines 118-122): for each labor,
`supply[output_good] += yields[labor] * labors[labor] * pop`. -/
def computedSupply [Fintype Labor] [DecidableEq Good] (e : Economy Good Labor)
    (prod : Labor → Good × ℝ) (g : Good) : ℝ :=
  ∑ l : Labor, if (prod l).1 = g then e.yields l * e.labors l * e.pop else 0

/-- The raw value-rationalisation signal `2.0f32.powf(1 - surplus / demand)`
(line 138), with the IEEE outcomes of a zero denominator made explicit:
in `f32`, `s / 0` is `NaN` when `s == 0`, `+inf` when `s > 0` and `-inf`
when `s < 0`; consequently the whole expression is `NaN`, `2^(-inf) = 0`
and `2^(+inf) = +inf` respectively. `Option ℝ` represents the float result,
`none` standing for the two non-finite outcomes (`NaN` and `+inf`), which
compare false against the gate bounds exactly as `0` fails `val > 0.001`;
`rawGatePasses` below spells out the gate for each case. For a nonzero
denominator the real-valued formula is used, `(2:ℝ) ^ x` being `Real.rpow`. -/
def rawValueF (surplus demand : ℝ) : Option ℝ :=
  if demand = 0 then
    (if 0 < surplus then some 0 else none)
  else
    some ((2 : ℝ) ^ (1 - surplus / demand))

/-- The gate `val > 0.001 && val < 1000` (line 140); an IEEE comparison
with `NaN` or a bound violated by `+inf` yields false, so the non-finite
raw outcomes (`none`) never pass. -/
def rawGatePasses (raw : Option ℝ) : Prop :=
  match raw with
  | some v => 0.001 < v ∧ v < 1000
  | none => False

instance (raw : Option ℝ) : Decidable (rawGatePasses raw) := by
  unfold rawGatePasses
  match raw with
  | some v => exact instDecidableAnd
  | none => exact instDecidableFalse

/-- The value update (lines 140-144):
`Some(smooth * values[good].unwrap_or(val) + (1 - smooth) * val)` with
`smooth = 0.8` when the gate passes, `None` otherwise. -/
def updateValueF (prev : Option ℝ) (raw : Option ℝ) : Option ℝ :=
  if rawGatePasses raw then
    some (0.8 * prev.getD (raw.getD 0) + (1 - 0.8) * raw.getD 0)
  else
    none

section Tick

variable [Fintype Labor] [DecidableEq Good] [DecidableEq Labor]

/-- The aggregated demand map of this tick. -/
def tickDemand (cat : Catalog Good Labor) (e : Economy Good Labor) : Good → ℝ :=
  computedDemand e cat.orders

/-- The aggregated supply map of this tick. -/
def tickSupply (cat : Catalog Good Labor) (e : Economy Good Labor) : Good → ℝ :=
  computedSupply e cat.productivity

/-- `surplus[g] = supply[g] + stocks[g] - demand[g]` (lines 125-127). -/
def tickSurplus (cat : Catalog Good Labor) (e : Economy Good Labor) (g : Good) : ℝ :=
  tickSupply cat e g + e.stocks g - tickDemand cat e g

/-- `marginal_surplus[g] = supply[g] - demand[g]` (line 128). -/
def tickMarginalSurplus (cat : Catalog Good Labor) (e : Economy Good Labor) (g : Good) : ℝ :=
  tickSupply cat e g - tickDemand cat e g

/-- The new `values` map (lines 136-145): the raw signal is computed from the
`surplus` field (the loop iterates `site.economy.surplus`), smoothed against
the previous value and gated. -/
def tickValues (cat : Catalog Good Labor) (e : Economy Good Labor) (g : Good) : Option ℝ :=
  updateValueF (e.values g) (rawValueF (tickSurplus cat e g) (tickDemand cat e g))

/-- `prices[g] = demand[g] / (supply[g] + stocks[g])` (lines 147-150). -/
def tickPrices (cat : Catalog Good Labor) (e : Economy Good Labor) (g : Good) : ℝ :=
  tickDemand cat e g / (tickSupply cat e g + e.stocks g)

/-- `labor_ratios[l] = values[output_good].unwrap_or(0) * productivity[l]`
(lines 171-174), reading the freshly updated values and the previous realized
productivity field. -/
def tickRatios (cat : Catalog Good Labor) (e : Economy Good Labor) (l : Labor) : ℝ :=
  (tickValues cat e (cat.productivity l).1).getD 0 * e.productivity l

/-- `labor_ratio_sum = sum(labor_ratios).max(0.01)` (line 175). -/
def tickRatioSum (cat : Catalog Good Labor) (e : Economy Good Labor) : ℝ :=
  max (∑ l : Labor, tickRatios cat e l) 0.01

/-- The reallocated workforce (lines 176-181):
`labors[l] = 0.8 * labors[l] + 0.2 * (labor_ratios[l].max(sum/1000) / sum)`. -/
def tickLabors (cat : Catalog Good Labor) (e : Economy Good Labor) (l : Labor) : ℝ :=
  0.8 * e.labors l
    + (1 - 0.8) * (max (tickRatios cat e l) (tickRatioSum cat e / 1000) / tickRatioSum cat e)

end Tick

/-- The per-good satisfaction `(stocks_before[good] / demand[good]).min(1)`
(lines 203-205). Division is the total real division (`x / 0 = 0`). -/
def satisfaction (stocksBefore demand : Good → ℝ) (g : Good) : ℝ :=
  min (stocksBefore g / demand g) 1

/-- `min_by` over the satisfactions of an order list (lines 198-208): `none`
for an empty list, which the caller turns into the panic. -/
def groupProductivity (stocksBefore demand : Good → ℝ) :
    List (Good × ℝ) → Option ℝ
  | [] => none
  | p :: rest =>
    some ((rest.map (fun q => satisfaction stocksBefore demand q.1)).foldl min
      (satisfaction stocksBefore demand p.1))

/-- The part of the economy state mutated by the production loop. -/
structure ProdState (Good Labor : Type) where
  stocks : Good → ℝ
  yields : Labor → ℝ
  productivity : Labor → ℝ

/-- One iteration of the production loop (lines 185-230) for one order group:
compute the bottleneck `labor_productivity` (panicking, i.e. `Except.error`,
when the group has no input order), deplete the input stocks
(`stocks[good] = (stocks[good] - amount * scale * labor_productivity).max(0)`),
and, for a group tied to a labor, record the yield and realized productivity
and add `yield_per_worker * workers.powf(1.1)` of the output good. -/
def applyOrderGroup [DecidableEq Good] [DecidableEq Labor]
    (prodCat : Labor → Good × ℝ) (stocksBefore demand : Good → ℝ)
    (labors : Labor → ℝ) (pop : ℝ) (st : ProdState Good Labor)
    (grp : Option Labor × List (Good × ℝ)) :
    Except (Option Labor) (ProdState Good Labor) :=
  let scale := (match grp.1 with
    | some l => labors l
    | none => 1) * pop
  match groupProductivity stocksBefore demand grp.2 with
  | none => Except.error grp.1
  | some lp =>
    let stocks1 := grp.2.foldl
      (fun (s : Good → ℝ) (p : Good × ℝ) =>
        Function.update s p.1 (max (s p.1 - p.2 * scale * lp) 0)) st.stocks
    match grp.1 with
    | none => Except.ok { st with stocks := stocks1 }
    | some l =>
      let workers := labors l * pop
      let yieldPerWorker := lp * (prodCat l).2
      Except.ok
        { stocks := Function.update stocks1 (prodCat l).1
            (stocks1 (prodCat l).1 + yieldPerWorker * workers ^ (1.1 : ℝ)),
          yields := Function.update st.yields l yieldPerWorker,
          productivity := Function.update st.productivity l lp }

/-- The production loop (lines 184-230), threading the mutated state through
the order groups in order and aborting at the first group with no inputs. -/
def runProduction [DecidableEq Good] [DecidableEq Labor]
    (prodCat : Labor → Good × ℝ) (stocksBefore demand : Good → ℝ)
    (labors : Labor → ℝ) (pop : ℝ) (st : ProdState Good Labor) :
    List (Option Labor × List (Good × ℝ)) →
      Except (Option Labor) (ProdState Good Labor)
  | [] => Except.ok st
  | grp :: rest =>
    match applyOrderGroup prodCat stocksBefore demand labors pop st grp with
    | Except.error l => Except.error l
    | Except.ok st' => runProduction prodCat stocksBefore demand labors pop st' rest

/-- `tick_site_economy` (lines 100-250): aggregate demand and supply, compute
surplus and marginal surplus, rationalise values and prices, reallocate the
workforce, run production (with the updated workforce), decay the stocks,
invoke the external replenishment with the current world time, and apply the
demographic update gated on the food surplus. The `Except` result models the
panic on an order group without inputs. -/
def tickSiteEconomy [Fintype Labor] [DecidableEq Good] [DecidableEq Labor]
    (cat : Catalog Good Labor) (time : ℝ) (e : Economy Good Labor) (dt : ℝ) :
    Except (Option Labor) (Economy Good Labor) :=
  match runProduction cat.productivity e.stocks (tickDemand cat e)
      (tickLabors cat e) e.pop
      { stocks := e.stocks, yields := e.yields, productivity := e.productivity }
      cat.orders with
  | Except.error l => Except.error l
  | Except.ok ps =>
    Except.ok
      { pop := e.pop + dt / YEAR * e.pop
          * ((if 0 < tickSurplus cat e cat.food then NATURAL_BIRTH_RATE else 0)
             - DEATH_RATE),
        stocks := cat.replenish time (fun g => ps.stocks g * (1 - cat.decay_rate g)),
        values := tickValues cat e,
        prices := tickPrices cat e,
        surplus := tickSurplus cat e,
        marginal_surplus := tickMarginalSurplus cat e,
        labors := tickLabors cat e,
        productivity := ps.productivity,
        yields := ps.yields }

/-- The raw scarcity signal of the value rationalisation, as a standalone
abbreviation for the statements below: `2^(1 - surplus[g] / demand[g])`. -/
def rawSignal [Fintype Labor] [DecidableEq Good] (cat : Catalog Good Labor)
    (e : Economy Good Labor) (g : Good) : ℝ :=
  (2 : ℝ) ^ (1 - tickSurplus cat e g / tickDemand cat e g)

/-! Concrete single-site instances used to evaluate the tick at explicit
inputs. `Unit` and `Bool` serve as the closed `Good` and `Labor`
enumerations of one or two elements. -/

/-- One good, one industry whose base rate is `-1`; everything else benign
(identity replenishment, zero decay, nonnegative entry state). -/
def exACat : Catalog Unit Unit :=
  { orders := [(some (), [((), 1)])],
    productivity := fun _ => ((), -1),
    decay_rate := fun _ => 0,
    replenish := fun _ s => s,
    food := () }

/-- Entry state for `exACat`: unit population, unit stock, full workforce. -/
def exAEcon : Economy Unit Unit :=
  { pop := 1, stocks := fun _ => 1, values := fun _ => none,
    prices := fun _ => 0, surplus := fun _ => 0, marginal_surplus := fun _ => 0,
    labors := fun _ => 1, productivity := fun _ => 1, yields := fun _ => 1 }

/-- The economy produced by one tick of length `1` on the `exA` instance. -/
def exARes : Economy Unit Unit :=
  (tickSiteEconomy exACat 0 exAEcon 1).toOption.getD exAEcon

/-- One good, no order groups, decay rate `1/2`. -/
def exBCat : Catalog Unit Unit :=
  { orders := [],
    productivity := fun _ => ((), 0),
    decay_rate := fun _ => 1 / 2,
    replenish := fun _ s => s,
    food := () }

/-- Entry state for `exBCat`. -/
def exBEcon : Economy Unit Unit :=
  { pop := 1, stocks := fun _ => 1, values := fun _ => none,
    prices := fun _ => 0, surplus := fun _ => 0, marginal_surplus := fun _ => 0,
    labors := fun _ => 0.5, productivity := fun _ => 1, yields := fun _ => 0 }

/-- The economy produced by one tick of length `0` on the `exB` instance. -/
def exBRes : Economy Unit Unit :=
  (tickSiteEconomy exBCat 0 exBEcon 0).toOption.getD exBEcon

/-- One good, one base-consumption order group, zero-rate industry, benign
catalog. -/
def exCCat : Catalog Unit Unit :=
  { orders := [(none, [((), 1)])],
    productivity := fun _ => ((), 0),
    decay_rate := fun _ => 0,
    replenish := fun _ s => s,
    food := () }

/-- Entry state for `exCCat`: supply and demand both equal `1`, stock `1`. -/
def exCEcon : Economy Unit Unit :=
  { pop := 1, stocks := fun _ => 1, values := fun _ => none,
    prices := fun _ => 0, surplus := fun _ => 0, marginal_surplus := fun _ => 0,
    labors := fun _ => 0.5, productivity := fun _ => 1, yields := fun _ => 2 }

/-- The economy produced by one tick of length `1` on the `exC` instance. -/
def exCRes : Economy Unit Unit :=
  (tickSiteEconomy exCCat 0 exCEcon 1).toOption.getD exCEcon

/-- The economy produced by one tick of length `TICK_PERIOD` on `exC`. -/
def exCResT : Economy Unit Unit :=
  (tickSiteEconomy exCCat 0 exCEcon TICK_PERIOD).toOption.getD exCEcon

/-- Two goods and two industries (`Bool`): the `true` industry has a priced
output and full previous productivity, the `false` industry a zero previous
productivity, giving a large ratio sum while the `false` allocation lands at
the unnormalised floor. -/
def exDCat : Catalog Bool Bool :=
  { orders := [(none, [(false, 1), (true, 1)])],
    productivity := fun l => (l, 0),
    decay_rate := fun _ => 0,
    replenish := fun _ s => s,
    food := false }

/-- Entry state for `exDCat`. -/
def exDEcon : Economy Bool Bool :=
  { pop := 1, stocks := fun _ => 0, values := fun _ => none,
    prices := fun _ => 0, surplus := fun _ => 0, marginal_surplus := fun _ => 0,
    labors := fun l => if l then 0.5 else 0,
    productivity := fun l => if l then 1 else 0,
    yields := fun l => if l then 2 else 0 }

/-- The economy produced by one tick of length `1` on the `exD` instance. -/
def exDRes : Economy Bool Bool :=
  (tickSiteEconomy exDCat 0 exDEcon 1).toOption.getD exDEcon

/-- A catalog whose single order group has an empty input list (the fatal
recipe-catalog misconfiguration). -/
def exECat : Catalog Unit Unit :=
  { orders := [(some (), [])],
    productivity := fun _ => ((), 0),
    decay_rate := fun _ => 0,
    replenish := fun _ s => s,
    food := () }

section Lemmas

variable [Fintype Labor] [DecidableEq Good] [DecidableEq Labor]
variable {cat : Catalog Good Labor} {time dt : ℝ} {e e' : Economy Good Labor}

/-- Structural characterisation of a successful tick: the production loop
succeeded and every field of the result is the corresponding composed map. -/
lemma tickSiteEconomy_ok
    (hok : tickSiteEconomy cat time e dt = Except.ok e') :
    ∃ ps, runProduction cat.productivity e.stocks (tickDemand cat e)
        (tickLabors cat e) e.pop
        { stocks := e.stocks, yields := e.yields, productivity := e.productivity }
        cat.orders = Except.ok ps ∧
      e' = { pop := e.pop + dt / YEAR * e.pop
              * ((if 0 < tickSurplus cat e cat.food then NATURAL_BIRTH_RATE else 0)
                 - DEATH_RATE),
             stocks := cat.replenish time
               (fun g => ps.stocks g * (1 - cat.decay_rate g)),
             values := tickValues cat e,
             prices := tickPrices cat e,
             surplus := tickSurplus cat e,
             marginal_surplus := tickMarginalSurplus cat e,
             labors := tickLabors cat e,
             productivity := ps.productivity,
             yields := ps.yields } := by
  unfold tickSiteEconomy at hok
  split at hok
  · exact absurd hok (by simp)
  · rename_i ps hps
    refine ⟨ps, hps, ?_⟩
    injection hok with h
    exact h.symm

lemma tick_ok_pop (hok : tickSiteEconomy cat time e dt = Except.ok e') :
    e'.pop = e.pop + dt / YEAR * e.pop
      * ((if 0 < tickSurplus cat e cat.food then NATURAL_BIRTH_RATE else 0)
         - DEATH_RATE) := by
  obtain ⟨ps, -, he⟩ := tickSiteEconomy_ok hok
  rw [he]

lemma tick_ok_values (hok : tickSiteEconomy cat time e dt = Except.ok e') :
    e'.values = tickValues cat e := by
  obtain ⟨ps, -, he⟩ := tickSiteEconomy_ok hok
  rw [he]

lemma tick_ok_labors (hok : tickSiteEconomy cat time e dt = Except.ok e') :
    e'.labors = tickLabors cat e := by
  obtain ⟨ps, -, he⟩ := tickSiteEconomy_ok hok
  rw [he]

lemma tick_ok_marginal (hok : tickSiteEconomy cat time e dt = Except.ok e') :
    e'.marginal_surplus = tickMarginalSurplus cat e := by
  obtain ⟨ps, -, he⟩ := tickSiteEconomy_ok hok
  rw [he]

omit [Fintype Labor] [DecidableEq Good] [DecidableEq Labor] in
lemma foldl_min_nonneg :
    ∀ (xs : List ℝ) (a : ℝ), 0 ≤ a → (∀ x ∈ xs, 0 ≤ x) → 0 ≤ xs.foldl min a := by
  intro xs
  induction xs with
  | nil => intro a ha _; exact ha
  | cons x xs ih =>
    intro a ha hx
    simp only [List.foldl_cons]
    exact ih (min a x) (le_min ha (hx x (List.mem_cons_self _ _)))
      (fun y hy => hx y (List.mem_cons_of_mem _ hy))

omit [Fintype Labor] [DecidableEq Good] [DecidableEq Labor] in
lemma orderScale_nonneg {e : Economy Good Labor}
    (hlab : ∀ l, 0 ≤ e.labors l) (hpop : 0 ≤ e.pop) (olab : Option Labor) :
    0 ≤ orderScale e olab := by
  unfold orderScale
  cases olab with
  | none => exact mul_nonneg zero_le_one hpop
  | some l => exact mul_nonneg (hlab l) hpop

omit [Fintype Labor] [DecidableEq Labor] in
lemma computedDemand_nonneg {e : Economy Good Labor}
    {orders : List (Option Labor × List (Good × ℝ))}
    (hamt : ∀ grp ∈ orders, ∀ p ∈ grp.2, 0 ≤ p.2)
    (hlab : ∀ l, 0 ≤ e.labors l) (hpop : 0 ≤ e.pop) (g : Good) :
    0 ≤ computedDemand e orders g := by
  unfold computedDemand
  apply List.sum_nonneg
  intro x hx
  obtain ⟨grp, hgrp, rfl⟩ := List.mem_map.mp hx
  apply List.sum_nonneg
  intro y hy
  obtain ⟨p, hp, rfl⟩ := List.mem_map.mp hy
  split
  · exact mul_nonneg (hamt grp hgrp p hp) (orderScale_nonneg hlab hpop grp.1)
  · exact le_refl 0

lemma tickRatioSum_pos (cat : Catalog Good Labor) (e : Economy Good Labor) :
    0 < tickRatioSum cat e :=
  lt_of_lt_of_le (by norm_num) (le_max_right _ _)

/-- The reallocated workforce of any labor gains at least `0.2 * (1/1000)`
on top of the damped previous allocation: the floor `ratio_sum/1000` inside
the normalised term guarantees the term is at least `1/1000`. -/
lemma tickLabors_ge (cat : Catalog Good Labor) (e : Economy Good Labor)
    (l : Labor) :
    0.8 * e.labors l + 0.0002 ≤ tickLabors cat e l := by
  unfold tickLabors
  have hpos := tickRatioSum_pos cat e
  have h1 : tickRatioSum cat e / 1000 / tickRatioSum cat e
      ≤ max (tickRatios cat e l) (tickRatioSum cat e / 1000)
        / tickRatioSum cat e :=
    (div_le_div_right hpos).mpr (le_max_right _ _)
  have h2 : tickRatioSum cat e / 1000 / tickRatioSum cat e = 1 / 1000 := by
    rw [div_div, mul_comm, ← div_div, div_self (ne_of_gt hpos)]
  rw [h2] at h1
  linarith

lemma tickLabors_nonneg (cat : Catalog Good Labor) {e : Economy Good Labor}
    (hlab : ∀ l, 0 ≤ e.labors l) (l : Labor) :
    0 ≤ tickLabors cat e l := by
  have h := tickLabors_ge cat e l
  have := hlab l
  linarith

omit [Fintype Labor] [DecidableEq Good] [DecidableEq Labor] in
lemma satisfaction_nonneg {sb dem : Good → ℝ}
    (hsb : ∀ g, 0 ≤ sb g) (hdem : ∀ g, 0 ≤ dem g) (g : Good) :
    0 ≤ satisfaction sb dem g :=
  le_min (div_nonneg (hsb g) (hdem g)) zero_le_one

omit [Fintype Labor] [DecidableEq Good] [DecidableEq Labor] in
lemma groupProductivity_nonneg {sb dem : Good → ℝ}
    (hsb : ∀ g, 0 ≤ sb g) (hdem : ∀ g, 0 ≤ dem g)
    {entries : List (Good × ℝ)} {lp : ℝ}
    (h : groupProductivity sb dem entries = some lp) : 0 ≤ lp := by
  cases entries with
  | nil => exact absurd h (by simp [groupProductivity])
  | cons p rest =>
    simp only [groupProductivity, Option.some.injEq] at h
    subst h
    apply foldl_min_nonneg
    · exact satisfaction_nonneg hsb hdem p.1
    · intro x hx
      obtain ⟨q, hq, rfl⟩ := List.mem_map.mp hx
      exact satisfaction_nonneg hsb hdem q.1

omit [Fintype Labor] [DecidableEq Labor] in
lemma deplete_stocks_nonneg (scale lp : ℝ) :
    ∀ (entries : List (Good × ℝ)) (s : Good → ℝ), (∀ g, 0 ≤ s g) → ∀ g,
      0 ≤ (entries.foldl
        (fun (s : Good → ℝ) (p : Good × ℝ) =>
          Function.update s p.1 (max (s p.1 - p.2 * scale * lp) 0)) s) g := by
  intro entries
  induction entries with
  | nil => intro s hs g; exact hs g
  | cons p rest ih =>
    intro s hs g
    simp only [List.foldl_cons]
    apply ih
    intro g1
    rw [Function.update_apply]
    split
    · exact le_max_right _ _
    · exact hs g1

omit [Fintype Labor] in
lemma applyOrderGroup_stocks_nonneg
    {prodCat : Labor → Good × ℝ} {stocksBefore demand : Good → ℝ}
    {labors : Labor → ℝ} {pop : ℝ} {st st' : ProdState Good Labor}
    {grp : Option Labor × List (Good × ℝ)}
    (hsb : ∀ g, 0 ≤ stocksBefore g) (hdem : ∀ g, 0 ≤ demand g)
    (hlabors : ∀ l, 0 ≤ labors l) (hpop : 0 ≤ pop)
    (hrate : ∀ l, 0 ≤ (prodCat l).2)
    (hst : ∀ g, 0 ≤ st.stocks g)
    (h : applyOrderGroup prodCat stocksBefore demand labors pop st grp
      = Except.ok st') :
    ∀ g, 0 ≤ st'.stocks g := by
  obtain ⟨olab, entries⟩ := grp
  unfold applyOrderGroup at h
  cases hlp : groupProductivity stocksBefore demand entries with
  | none => rw [hlp] at h; exact absurd h (by simp)
  | some lp =>
    rw [hlp] at h
    have hlp0 : 0 ≤ lp := groupProductivity_nonneg hsb hdem hlp
    cases olab with
    | none =>
      injection h with h
      rw [← h]
      exact deplete_stocks_nonneg _ lp entries st.stocks hst
    | some l =>
      injection h with h
      rw [← h]
      intro g
      simp only []
      rw [Function.update_apply]
      have hs1 := deplete_stocks_nonneg (labors l * pop) lp entries st.stocks hst
      split
      · apply add_nonneg (hs1 _)
        apply mul_nonneg (mul_nonneg hlp0 (hrate l))
        exact Real.rpow_nonneg (mul_nonneg (hlabors l) hpop) _
      · exact hs1 g

omit [Fintype Labor] in
lemma runProduction_stocks_nonneg
    {prodCat : Labor → Good × ℝ} {stocksBefore demand : Good → ℝ}
    {labors : Labor → ℝ} {pop : ℝ}
    (hsb : ∀ g, 0 ≤ stocksBefore g) (hdem : ∀ g, 0 ≤ demand g)
    (hlabors : ∀ l, 0 ≤ labors l) (hpop : 0 ≤ pop)
    (hrate : ∀ l, 0 ≤ (prodCat l).2) :
    ∀ (orders : List (Option Labor × List (Good × ℝ)))
      (st ps : ProdState Good Labor), (∀ g, 0 ≤ st.stocks g) →
      runProduction prodCat stocksBefore demand labors pop st orders
        = Except.ok ps →
      ∀ g, 0 ≤ ps.stocks g := by
  intro orders
  induction orders with
  | nil =>
    intro st ps hst h
    injection h with h
    rw [← h]
    exact hst
  | cons grp rest ih =>
    intro st ps hst h
    unfold runProduction at h
    cases hg : applyOrderGroup prodCat stocksBefore demand labors pop st grp with
    | error l => rw [hg] at h; exact absurd h (by simp)
    | ok st1 =>
      rw [hg] at h
      exact ih st1 ps
        (applyOrderGroup_stocks_nonneg hsb hdem hlabors hpop hrate hst hg) h

omit [Fintype Labor] in
lemma applyOrderGroup_ok_of_ne_nil
    (prodCat : Labor → Good × ℝ) (stocksBefore demand : Good → ℝ)
    (labors : Labor → ℝ) (pop : ℝ) (st : ProdState Good Labor)
    (grp : Option Labor × List (Good × ℝ)) (hne : grp.2 ≠ []) :
    ∃ st', applyOrderGroup prodCat stocksBefore demand labors pop st grp
      = Except.ok st' := by
  obtain ⟨olab, entries⟩ := grp
  match entries with
  | [] => exact absurd rfl hne
  | p :: rest =>
    unfold applyOrderGroup groupProductivity
    match olab with
    | none => exact ⟨_, rfl⟩
    | some l => exact ⟨_, rfl⟩

omit [Fintype Labor] in
lemma applyOrderGroup_error
    (prodCat : Labor → Good × ℝ) (stocksBefore demand : Good → ℝ)
    (labors : Labor → ℝ) (pop : ℝ) (st : ProdState Good Labor)
    (olab : Option Labor) :
    applyOrderGroup prodCat stocksBefore demand labors pop st (olab, [])
      = Except.error olab := by
  unfold applyOrderGroup groupProductivity
  rfl

omit [Fintype Labor] in
lemma runProduction_error_of_mem
    (prodCat : Labor → Good × ℝ) (stocksBefore demand : Good → ℝ)
    (labors : Labor → ℝ) (pop : ℝ) :
    ∀ (orders : List (Option Labor × List (Good × ℝ)))
      (st : ProdState Good Labor) (olab : Option Labor),
      (olab, ([] : List (Good × ℝ))) ∈ orders →
      ∃ olab', runProduction prodCat stocksBefore demand labors pop st orders
          = Except.error olab' ∧
        (olab', ([] : List (Good × ℝ))) ∈ orders := by
  intro orders
  induction orders with
  | nil => intro st olab h; exact absurd h (List.not_mem_nil _)
  | cons grp rest ih =>
    intro st olab h
    obtain ⟨g1, entries1⟩ := grp
    by_cases hg : entries1 = []
    · subst hg
      refine ⟨g1, ?_, List.mem_cons_self _ _⟩
      unfold runProduction
      rw [applyOrderGroup_error]
    · have hmem : (olab, ([] : List (Good × ℝ))) ∈ rest := by
        rcases List.mem_cons.mp h with h1 | h2
        · exact absurd (congrArg Prod.snd h1).symm hg
        · exact h2
      obtain ⟨st', hst'⟩ := applyOrderGroup_ok_of_ne_nil prodCat stocksBefore
        demand labors pop st (g1, entries1) hg
      obtain ⟨olab', h1, h2⟩ := ih st' olab hmem
      refine ⟨olab', ?_, List.mem_cons_of_mem _ h2⟩
      unfold runProduction
      rw [hst']
      exact h1

omit [Fintype Labor] [DecidableEq Good] [DecidableEq Labor] in
lemma two_rpow_two : (2:ℝ) ^ (2:ℝ) = 4 := by
  rw [show (2:ℝ) = ((2:ℕ):ℝ) by norm_num, Real.rpow_natCast]
  norm_num

/-! Evaluation of the tick on the concrete instances. -/

lemma exA_tick : tickSiteEconomy exACat 0 exAEcon 1 = Except.ok exARes := rfl

lemma exB_tick : tickSiteEconomy exBCat 0 exBEcon 0 = Except.ok exBRes := rfl

lemma exC_tick : tickSiteEconomy exCCat 0 exCEcon 1 = Except.ok exCRes := rfl

lemma exC_tickT :
    tickSiteEconomy exCCat 0 exCEcon TICK_PERIOD = Except.ok exCResT := rfl

lemma exD_tick : tickSiteEconomy exDCat 0 exDEcon 1 = Except.ok exDRes := rfl

lemma exA_demand : tickDemand exACat exAEcon () = 1 := by
  simp [tickDemand, computedDemand, orderScale, exACat, exAEcon]

lemma exA_surplus : tickSurplus exACat exAEcon () = 1 := by
  simp [tickSurplus, tickSupply, tickDemand, computedSupply, computedDemand,
    orderScale, exACat, exAEcon]

lemma exA_values : tickValues exACat exAEcon () = some 1 := by
  rw [tickValues, exA_surplus, exA_demand, rawValueF,
    if_neg (by norm_num : ¬((1:ℝ) = 0))]
  rw [show (1:ℝ) - 1 / 1 = 0 by norm_num, Real.rpow_zero]
  rw [updateValueF, if_pos (by unfold rawGatePasses; norm_num)]
  show some (0.8 * (exAEcon.values ()).getD _ + _) = _
  simp [exAEcon]

lemma exA_ratios : ∀ l, tickRatios exACat exAEcon l = 1 := by
  intro l
  cases l
  rw [tickRatios, show (exACat.productivity ()).1 = () from rfl, exA_values]
  simp [exAEcon]

lemma exA_rsum : tickRatioSum exACat exAEcon = 1 := by
  rw [tickRatioSum, Fintype.sum_unique, exA_ratios]
  norm_num

lemma exA_labors : ∀ l, tickLabors exACat exAEcon l = 1 := by
  intro l
  cases l
  rw [tickLabors, exA_rsum, exA_ratios]
  simp [exAEcon]
  norm_num

/-- On the `exA` instance the tick drives the single stock to `-1`: the
input is fully consumed and the negative base rate removes a further unit. -/
lemma exA_stocks : exARes.stocks () = -1 := by
  simp only [exARes, tickSiteEconomy, runProduction, applyOrderGroup,
    groupProductivity, satisfaction, List.map_cons, List.map_nil,
    List.foldl_cons, List.foldl_nil, Except.toOption, Option.getD,
    exA_demand, exA_labors,
    show exACat.orders = [(some (), [((), 1)])] from rfl,
    show exACat.productivity = fun _ => ((), (-1:ℝ)) from rfl,
    show exACat.decay_rate = fun _ => (0:ℝ) from rfl,
    show exACat.replenish = fun _ s => s from rfl,
    show exAEcon.pop = (1:ℝ) from rfl,
    show exAEcon.stocks = fun _ => (1:ℝ) from rfl,
    Function.update_same]
  norm_num [Real.one_rpow]

lemma exB_demand : tickDemand exBCat exBEcon () = 0 := by
  simp [tickDemand, computedDemand, exBCat]

lemma exB_supply : tickSupply exBCat exBEcon () = 0 := by
  simp [tickSupply, computedSupply, exBCat, exBEcon]

/-- On the `exB` instance a tick of length `0` still halves the stock
through the decay step. -/
lemma exB_stocks : exBRes.stocks () = 1 / 2 := by
  simp only [exBRes, tickSiteEconomy, runProduction, Except.toOption,
    Option.getD,
    show exBCat.orders = [] from rfl,
    show exBCat.replenish = fun _ s => s from rfl,
    show exBCat.decay_rate = fun _ => (1/2 : ℝ) from rfl,
    show exBEcon.stocks = fun _ => (1:ℝ) from rfl]
  norm_num

lemma exC_demand : tickDemand exCCat exCEcon () = 1 := by
  simp [tickDemand, computedDemand, orderScale, exCCat, exCEcon]

lemma exC_supply : tickSupply exCCat exCEcon () = 1 := by
  simp [tickSupply, computedSupply, exCCat, exCEcon]
  norm_num

lemma exC_surplus : tickSurplus exCCat exCEcon () = 1 := by
  rw [tickSurplus, exC_supply, exC_demand]
  simp [exCEcon]

lemma exC_marginal : tickMarginalSurplus exCCat exCEcon () = 0 := by
  rw [tickMarginalSurplus, exC_supply, exC_demand]
  norm_num

lemma exC_values : tickValues exCCat exCEcon () = some 1 := by
  rw [tickValues, exC_surplus, exC_demand, rawValueF,
    if_neg (by norm_num : ¬((1:ℝ) = 0))]
  rw [show (1:ℝ) - 1 / 1 = 0 by norm_num, Real.rpow_zero]
  rw [updateValueF, if_pos (by unfold rawGatePasses; norm_num)]
  show some (0.8 * (exCEcon.values ()).getD _ + _) = _
  simp [exCEcon]

lemma exD_demand : ∀ g, tickDemand exDCat exDEcon g = 1 := by
  intro g
  cases g <;>
    simp [tickDemand, computedDemand, orderScale, exDCat, exDEcon]

lemma exD_supply_false : tickSupply exDCat exDEcon false = 0 := by
  simp [tickSupply, computedSupply, exDCat, exDEcon, Fintype.sum_bool]

lemma exD_supply_true : tickSupply exDCat exDEcon true = 1 := by
  simp [tickSupply, computedSupply, exDCat, exDEcon, Fintype.sum_bool]
  norm_num

lemma exD_surplus_false : tickSurplus exDCat exDEcon false = -1 := by
  rw [tickSurplus, exD_supply_false, exD_demand]
  simp [exDEcon]

lemma exD_surplus_true : tickSurplus exDCat exDEcon true = 0 := by
  rw [tickSurplus, exD_supply_true, exD_demand]
  simp [exDEcon]

lemma exD_values_false : tickValues exDCat exDEcon false = some 4 := by
  rw [tickValues, exD_surplus_false, exD_demand, rawValueF,
    if_neg (by norm_num : ¬((1:ℝ) = 0))]
  rw [show (1:ℝ) - (-1) / 1 = 2 by norm_num, two_rpow_two]
  rw [updateValueF, if_pos (by unfold rawGatePasses; norm_num)]
  show some (0.8 * (exDEcon.values false).getD _ + _) = _
  simp [exDEcon]
  norm_num

lemma exD_values_true : tickValues exDCat exDEcon true = some 2 := by
  rw [tickValues, exD_surplus_true, exD_demand, rawValueF,
    if_neg (by norm_num : ¬((1:ℝ) = 0))]
  rw [show (1:ℝ) - 0 / 1 = 1 by norm_num, Real.rpow_one]
  rw [updateValueF, if_pos (by unfold rawGatePasses; norm_num)]
  show some (0.8 * (exDEcon.values true).getD _ + _) = _
  simp [exDEcon]
  norm_num

lemma exD_ratios_false : tickRatios exDCat exDEcon false = 0 := by
  rw [tickRatios, show (exDCat.productivity false).1 = false from rfl,
    exD_values_false]
  simp [exDEcon]

lemma exD_ratios_true : tickRatios exDCat exDEcon true = 2 := by
  rw [tickRatios, show (exDCat.productivity true).1 = true from rfl,
    exD_values_true]
  simp [exDEcon]

lemma exD_rsum : tickRatioSum exDCat exDEcon = 2 := by
  rw [tickRatioSum, Fintype.sum_bool, exD_ratios_false, exD_ratios_true]
  norm_num

/-- On the `exD` instance the reallocated share of the `false` industry is
the damped unnormalised floor `0.2 * ((ratio_sum/1000) / ratio_sum)`. -/
lemma exD_labors_false : tickLabors exDCat exDEcon false = 0.0002 := by
  rw [tickLabors, exD_rsum, exD_ratios_false,
    show max (0:ℝ) (2 / 1000) = 2 / 1000 from max_eq_right (by norm_num)]
  simp [exDEcon]
  norm_num

end Lemmas

section Claims

variable [Fintype Labor] [DecidableEq Good] [DecidableEq Labor]
variable {cat : Catalog Good Labor} {time dt : ℝ} {e e' : Economy Good Labor}

/-- **C9**: the Demographic Updater changes population by exactly
`pop += (dt/YEAR) * pop * (birth_rate - death_rate)` with
`birth_rate = 0.05` per year when the food surplus of this tick is positive and
`0` otherwise, `death_rate = 0.005` per year, and `YEAR = 360` days; no
other step of `tick_site_economy` modifies `pop` (the resulting population is
exactly this expression in the entry population). -/
theorem demographic_update_exact
    (hok : tickSiteEconomy cat time e dt = Except.ok e') :
    e'.pop = e.pop + dt / 360 * e.pop
      * ((if 0 < tickSurplus cat e cat.food then 0.05 else 0) - 0.005)
      ∧ YEAR = 360 := by
  have hy : YEAR = 360 := by norm_num [YEAR, MONTH]
  refine ⟨?_, hy⟩
  rw [tick_ok_pop hok, hy]
  norm_num [NATURAL_BIRTH_RATE, DEATH_RATE]

/-- **C10**: although no explicit floor at zero is applied, a successful tick
preserves `pop ≥ 0` whenever `0 ≤ dt < 200 * YEAR`, because the demographic
update multiplies the population by `1 + (dt/YEAR) * (birth_rate - 0.005)`,
which is strictly positive under that bound; in particular this holds at the
`TICK_PERIOD` of 90 days used by the driver. -/
theorem pop_nonneg_preserved
    (hok : tickSiteEconomy cat time e dt = Except.ok e')
    (hpop : 0 ≤ e.pop) (hdt0 : 0 ≤ dt) (hdt1 : dt < 200 * YEAR) :
    0 ≤ e'.pop := by
  have hy : YEAR = 360 := by norm_num [YEAR, MONTH]
  rw [hy] at hdt1
  rw [tick_ok_pop hok, hy]
  unfold NATURAL_BIRTH_RATE DEATH_RATE
  split
  · nlinarith
  · nlinarith

/-- **C8**: for a good with zero demand during a tick (given nonnegative
stock and supply), the value-rationalisation gate stores no NaN or infinite
number in `values[g]`: the float raw signal is NaN, `0` or `+inf`, all of
which fail the gate, so `values[g] = None`; as this holds for every such
tick, any number of consecutive zero-demand ticks keeps `values[g] = None`. -/
theorem zero_demand_values_none
    (g : Good) (hok : tickSiteEconomy cat time e dt = Except.ok e')
    (hd : tickDemand cat e g = 0)
    (_hs : 0 ≤ e.stocks g) (_hsup : 0 ≤ tickSupply cat e g) :
    e'.values g = none := by
  rw [tick_ok_values hok]
  unfold tickValues updateValueF rawValueF
  rw [if_pos hd]
  split
  · rename_i hpos
    rw [if_neg]
    unfold rawGatePasses
    norm_num
  · rw [if_neg]
    unfold rawGatePasses
    exact not_false

/-- **C6**: for every good with positive demand, the Value Rationalizer sets
`values[g]` to `Some(0.8 * (previous value, or raw when previously None)
+ 0.2 * raw)` with `raw = 2^(1 - surplus[g]/demand[g])` exactly when `raw`
lies strictly inside `(0.001, 1000)`, and to `None` otherwise. -/
theorem value_gate_smoothing
    (g : Good) (hok : tickSiteEconomy cat time e dt = Except.ok e')
    (hd : 0 < tickDemand cat e g) :
    (0.001 < rawSignal cat e g ∧ rawSignal cat e g < 1000 →
      e'.values g = some (0.8 * (e.values g).getD (rawSignal cat e g)
        + 0.2 * rawSignal cat e g))
    ∧ (¬(0.001 < rawSignal cat e g ∧ rawSignal cat e g < 1000) →
      e'.values g = none) := by
  rw [tick_ok_values hok]
  unfold tickValues updateValueF rawValueF
  rw [if_neg (ne_of_gt hd)]
  constructor
  · intro hgate
    rw [if_pos]
    · norm_num [rawSignal]
    · unfold rawGatePasses
      exact hgate
  · intro hgate
    rw [if_neg]
    unfold rawGatePasses
    exact hgate

/-- Modelled from the spec (section 4.5 step 1): the bottleneck ratio
`labor_productivity = min over all (good, qty) in this group of
(stocks_before[good] / demand[good]), clamped to at most 1`, with the clamp
applied to the minimum, and no value for a group without inputs. -/
def specLaborProductivity (stocksBefore demand : Good → ℝ) :
    List (Good × ℝ) → Option ℝ
  | [] => none
  | p :: rest =>
    some (min ((rest.map (fun q => stocksBefore q.1 / demand q.1)).foldl min
      (stocksBefore p.1 / demand p.1)) 1)

/-- Modelled from the spec (section 4.5): the per-group production step in the
words of the specification. Step 1 computes `labor_productivity` (step 2:
failing fast on a group with zero required inputs); step 3 sets, for each
`(good, qty)`, `used = qty * scale * labor_productivity` and
`stocks[good] = max(0, stocks[good] - used)`; step 4, for a group tied to a
labor, sets `workers = labors[labor] * pop`,
`yield_per_worker = labor_productivity * base_rate`,
`yields[labor] = yield_per_worker`, `productivity[labor] = labor_productivity`
and `stocks[output_good] += yield_per_worker * workers^1.1`. -/
def specApplyGroup [DecidableEq Good] [DecidableEq Labor]
    (prodCat : Labor → Good × ℝ) (stocksBefore demand : Good → ℝ)
    (labors : Labor → ℝ) (pop : ℝ) (st : ProdState Good Labor)
    (grp : Option Labor × List (Good × ℝ)) :
    Except (Option Labor) (ProdState Good Labor) :=
  match specLaborProductivity stocksBefore demand grp.2 with
  | none => Except.error grp.1
  | some lp =>
    let scale := (match grp.1 with
      | some l => labors l
      | none => 1) * pop
    let stocks1 := grp.2.foldl
      (fun (s : Good → ℝ) (p : Good × ℝ) =>
        Function.update s p.1 (max 0 (s p.1 - p.2 * scale * lp))) st.stocks
    match grp.1 with
    | none => Except.ok { st with stocks := stocks1 }
    | some l =>
      let workers := labors l * pop
      let yieldPerWorker := lp * (prodCat l).2
      Except.ok
        { stocks := Function.update stocks1 (prodCat l).1
            (stocks1 (prodCat l).1 + yieldPerWorker * workers ^ (1.1 : ℝ)),
          yields := Function.update st.yields l yieldPerWorker,
          productivity := Function.update st.productivity l lp }

omit [Fintype Labor] [DecidableEq Good] [DecidableEq Labor] in
lemma foldl_min_map_min (c : ℝ) :
    ∀ (xs : List ℝ) (a : ℝ),
      (xs.map (fun x => min x c)).foldl min (min a c) = min (xs.foldl min a) c := by
  intro xs
  induction xs with
  | nil => intro a; rfl
  | cons x xs ih =>
    intro a
    simp only [List.map_cons, List.foldl_cons]
    rw [min_min_min_comm, min_self]
    exact ih (min a x)

omit [Fintype Labor] [DecidableEq Good] [DecidableEq Labor] in
lemma groupProductivity_eq_spec (sb dem : Good → ℝ)
    (entries : List (Good × ℝ)) :
    groupProductivity sb dem entries = specLaborProductivity sb dem entries := by
  cases entries with
  | nil => rfl
  | cons p rest =>
    simp only [groupProductivity, specLaborProductivity, satisfaction]
    rw [← foldl_min_map_min 1 (rest.map fun q => sb q.1 / dem q.1)
      (sb p.1 / dem p.1)]
    simp only [List.map_map, Function.comp_def]

/-- **C5**: each iteration of the Production Executor implements the
specification of section 4.5 exactly: the bottleneck `labor_productivity` is
the minimum over the group of `stocks_before[good]/demand[good]` clamped to at
most `1` (the source clamps each ratio before taking the minimum, which is
the same function), every input stock is reduced by
`qty * scale * labor_productivity` and floored at `0`, and a group tied to a
labor records `yields[labor] = labor_productivity * base_rate` and
`productivity[labor] = labor_productivity` and adds exactly
`yield_per_worker * workers^1.1` of the output good, with
`workers = labors[labor] * pop` and exponent exactly `1.1`. -/
theorem production_group_spec
    (prodCat : Labor → Good × ℝ) (stocksBefore demand : Good → ℝ)
    (labors : Labor → ℝ) (pop : ℝ) (st : ProdState Good Labor)
    (grp : Option Labor × List (Good × ℝ)) :
    applyOrderGroup prodCat stocksBefore demand labors pop st grp
      = specApplyGroup prodCat stocksBefore demand labors pop st grp := by
  unfold applyOrderGroup specApplyGroup
  rw [groupProductivity_eq_spec]
  cases hlp : specLaborProductivity stocksBefore demand grp.2 with
  | none => rfl
  | some lp =>
    obtain ⟨olab, entries⟩ := grp
    have hfold : ∀ (scale : ℝ),
        (fun (s : Good → ℝ) (p : Good × ℝ) =>
          Function.update s p.1 (max (s p.1 - p.2 * scale * lp) 0))
        = (fun (s : Good → ℝ) (p : Good × ℝ) =>
          Function.update s p.1 (max 0 (s p.1 - p.2 * scale * lp))) := by
      intro scale
      funext s p
      rw [max_comm]
    cases olab with
    | none =>
      simp only []
      rw [hfold (1 * pop)]
    | some l =>
      simp only []
      rw [hfold (labors l * pop)]

/-- **C1 (amended)**: after a successful `tick_site_economy`, every stock is
nonnegative, under the preconditions of the claim (entry stocks nonnegative,
entry population nonnegative, every decay rate in `[0,1]`, replenishment
preserving nonnegativity) strengthened by the preconditions the code needs
but the claim omits: nonnegative order quantities, nonnegative base rates
and nonnegative entry workforce allocations. Without the added hypotheses the
property fails (see the counterexample with a negative base rate). -/
theorem stocks_nonneg_amended
    (hok : tickSiteEconomy cat time e dt = Except.ok e')
    (hstocks : ∀ g, 0 ≤ e.stocks g) (hpop : 0 ≤ e.pop)
    (hdecay : ∀ g, 0 ≤ cat.decay_rate g ∧ cat.decay_rate g ≤ 1)
    (hrep : ∀ t s, (∀ g, 0 ≤ s g) → ∀ g, 0 ≤ cat.replenish t s g)
    (hamt : ∀ grp ∈ cat.orders, ∀ p ∈ grp.2, 0 ≤ p.2)
    (hrate : ∀ l, 0 ≤ (cat.productivity l).2)
    (hlab : ∀ l, 0 ≤ e.labors l) :
    ∀ g, 0 ≤ e'.stocks g := by
  obtain ⟨ps, hps, he⟩ := tickSiteEconomy_ok hok
  have hdem : ∀ g, 0 ≤ tickDemand cat e g := by
    intro g
    exact computedDemand_nonneg hamt hlab hpop g
  have hpsn : ∀ g, 0 ≤ ps.stocks g :=
    runProduction_stocks_nonneg hstocks hdem (tickLabors_nonneg cat hlab) hpop
      hrate cat.orders _ ps hstocks hps
  rw [he]
  intro g
  apply hrep
  intro g1
  apply mul_nonneg (hpsn g1)
  have := (hdecay g1).2
  linarith

/-- **C2 (amended)**: a successful `tick_site_economy` with `dt = 0` leaves
`pop` numerically unchanged (the demographic term is scaled by `dt`), but the
decay, replenishment, production and labor-reallocation steps are not scaled
by `dt` and in general change `stocks`, `prices` and `labors` (see the
counterexample, where a tick with `dt = 0` halves a stock through decay). -/
theorem dt_zero_pop_unchanged
    (hok : tickSiteEconomy cat time e 0 = Except.ok e') :
    e'.pop = e.pop := by
  rw [tick_ok_pop hok]
  simp

/-- **C3 (amended)**: the raw scarcity signal smoothed into `values[g]` each
tick is computed from the surplus that includes the existing stock,
`surplus[g] = supply[g] + stocks[g] - demand[g]`; the stock-free
`marginal_surplus[g] = supply[g] - demand[g]` is computed and stored in the
economy record but is not the input of the value update. -/
theorem values_use_surplus
    (g : Good) (hok : tickSiteEconomy cat time e dt = Except.ok e') :
    e'.values g = updateValueF (e.values g)
      (rawValueF (tickSupply cat e g + e.stocks g - tickDemand cat e g)
        (tickDemand cat e g))
    ∧ e'.marginal_surplus g = tickSupply cat e g - tickDemand cat e g := by
  constructor
  · rw [tick_ok_values hok]
    rfl
  · rw [tick_ok_marginal hok]
    rfl

/-- **C4 (amended)**: after a successful tick, every workforce allocation
satisfies `labors[l] ≥ 0.8 * (entry labors[l]) + 0.0002`; in particular, when
the entry allocations are nonnegative, `labors[l] ≥ 0.0002 > 0`, so the
allocation of an industry is never exactly zero. The interval
`[ratio_sum/1000, 1]` claimed for `labors[l]` does not hold in general (see
the counterexample, where an allocation lands strictly below
`ratio_sum/1000`). -/
theorem labors_floor_amended
    (hok : tickSiteEconomy cat time e dt = Except.ok e')
    (hlab : ∀ l, 0 ≤ e.labors l) :
    ∀ l, 0.0002 ≤ e'.labors l := by
  intro l
  have h1 := tickLabors_ge cat e l
  have h2 := hlab l
  rw [tick_ok_labors hok]
  linarith

/-- **C7**: if any order group passed to the Production Executor has an empty
list of required inputs, `tick_site_economy` aborts (the modelled panic,
`Except.error`) with a diagnostic naming an offending group key (the `Labor`,
or none for the base-consumption group), rather than treating the group as
unconstrained and producing output. -/
theorem empty_order_group_aborts
    (olab : Option Labor)
    (h : (olab, ([] : List (Good × ℝ))) ∈ cat.orders) :
    ∃ olab', tickSiteEconomy cat time e dt = Except.error olab' ∧
      (olab', ([] : List (Good × ℝ))) ∈ cat.orders := by
  obtain ⟨olab', h1, h2⟩ := runProduction_error_of_mem cat.productivity e.stocks
    (tickDemand cat e) (tickLabors cat e) e.pop cat.orders
    { stocks := e.stocks, yields := e.yields, productivity := e.productivity }
    olab h
  refine ⟨olab', ?_, h2⟩
  unfold tickSiteEconomy
  rw [h1]

/-- **C1 (counterexample)**: the preconditions of the claim all hold on the `exA`
instance — entry stock `1 ≥ 0`, entry population `1 ≥ 0`, decay rate
`0 ∈ [0,1]`, identity replenishment — yet the tick returns a negative stock,
`-1`, because the base rate in the catalog is negative, which the listed
preconditions do not exclude. -/
theorem stocks_nonneg_cex :
    tickSiteEconomy exACat 0 exAEcon 1 = Except.ok exARes
    ∧ 0 ≤ exAEcon.stocks () ∧ 0 ≤ exAEcon.pop
    ∧ 0 ≤ exACat.decay_rate () ∧ exACat.decay_rate () ≤ 1
    ∧ exACat.replenish = (fun _ s => s)
    ∧ exARes.stocks () = -1
    ∧ ¬(0 ≤ exARes.stocks ()) := by
  refine ⟨exA_tick, by norm_num [exAEcon], by norm_num [exAEcon],
    by norm_num [exACat], by norm_num [exACat], rfl, exA_stocks, ?_⟩
  rw [exA_stocks]
  norm_num

/-- **C1 (witness)** for the amended theorem, at the benign `exC` instance. -/
theorem stocks_nonneg_witness :
    tickSiteEconomy exCCat 0 exCEcon 1 = Except.ok exCRes
    ∧ 0 ≤ exCRes.stocks () := by
  refine ⟨exC_tick, ?_⟩
  exact stocks_nonneg_amended exC_tick
    (fun g => by norm_num [exCEcon]) (by norm_num [exCEcon])
    (fun g => by norm_num [exCCat]) (fun t s h g => h g)
    (by intro grp hgrp p hp
        simp [exCCat] at hgrp
        rw [hgrp] at hp
        simp at hp
        rw [hp]
        norm_num)
    (fun l => by norm_num [exCCat]) (fun l => by norm_num [exCEcon]) ()

/-- **C2 (counterexample)**: on the `exB` instance a tick with `dt = 0`
changes the stock from `1` to `1/2` through the decay step, so the tick with
`dt = 0` is not a numeric no-op on `stocks`. -/
theorem dt_zero_not_identity_cex :
    tickSiteEconomy exBCat 0 exBEcon 0 = Except.ok exBRes
    ∧ exBEcon.stocks () = 1
    ∧ exBRes.stocks () = 1 / 2
    ∧ exBRes.stocks () ≠ exBEcon.stocks () := by
  refine ⟨exB_tick, rfl, exB_stocks, ?_⟩
  rw [exB_stocks, show exBEcon.stocks () = 1 from rfl]
  norm_num

/-- **C2 (witness)** for the amended theorem: `dt = 0` leaves `pop`
unchanged on the `exB` instance. -/
theorem dt_zero_pop_unchanged_witness : exBRes.pop = exBEcon.pop :=
  dt_zero_pop_unchanged exB_tick

/-- **C3 (counterexample)**: on the `exC` instance the tick stores
`values = some 1`, which is the smoothed-and-gated image of the
stock-inclusive surplus (`surplus = 1`, raw `2^0 = 1`); the marginal-surplus
signal claimed by the spec (`marginal_surplus = 0`, raw `2^1 = 2`) would
store `some 2` instead. -/
theorem values_marginal_cex :
    tickSiteEconomy exCCat 0 exCEcon 1 = Except.ok exCRes
    ∧ exCRes.values () = some 1
    ∧ updateValueF (exCEcon.values ())
        (rawValueF (tickMarginalSurplus exCCat exCEcon ())
          (tickDemand exCCat exCEcon ()))
      = some 2
    ∧ exCRes.values () ≠ some 2 := by
  have hval : exCRes.values () = some 1 := by
    rw [tick_ok_values exC_tick]
    exact exC_values
  refine ⟨exC_tick, hval, ?_, ?_⟩
  · rw [exC_marginal, exC_demand, rawValueF, if_neg (by norm_num : ¬((1:ℝ) = 0))]
    rw [show (1:ℝ) - 0 / 1 = 1 by norm_num, Real.rpow_one]
    rw [updateValueF, if_pos (by unfold rawGatePasses; norm_num)]
    show some (0.8 * (exCEcon.values ()).getD _ + _) = _
    simp [exCEcon]
    norm_num
  · rw [hval]
    norm_num

/-- **C3 (witness)** for the amended theorem, at the `exC` instance. -/
theorem values_use_surplus_witness :
    exCRes.values () = updateValueF (exCEcon.values ())
      (rawValueF (tickSupply exCCat exCEcon () + exCEcon.stocks ()
          - tickDemand exCCat exCEcon ())
        (tickDemand exCCat exCEcon ()))
    ∧ exCRes.marginal_surplus ()
      = tickSupply exCCat exCEcon () - tickDemand exCCat exCEcon () :=
  values_use_surplus () exC_tick

/-- **C4 (counterexample)**: on the `exD` instance every entry allocation is
inside `[0,1]`, the tick succeeds, `ratio_sum = 2`, and the reallocated
share of the `false` industry is `0.0002`, strictly below the claimed lower
bound `ratio_sum / 1000 = 0.002`. -/
theorem labors_floor_cex :
    tickSiteEconomy exDCat 0 exDEcon 1 = Except.ok exDRes
    ∧ (0 ≤ exDEcon.labors false ∧ exDEcon.labors false ≤ 1)
    ∧ (0 ≤ exDEcon.labors true ∧ exDEcon.labors true ≤ 1)
    ∧ tickRatioSum exDCat exDEcon = 2
    ∧ exDRes.labors false = 0.0002
    ∧ ¬(tickRatioSum exDCat exDEcon / 1000 ≤ exDRes.labors false) := by
  have hl : exDRes.labors false = 0.0002 := by
    rw [tick_ok_labors exD_tick]
    exact exD_labors_false
  refine ⟨exD_tick, by norm_num [exDEcon], by norm_num [exDEcon], exD_rsum,
    hl, ?_⟩
  rw [exD_rsum, hl]
  norm_num

/-- **C4 (witness)** for the amended theorem, at the `exC` instance. -/
theorem labors_floor_witness : 0.0002 ≤ exCRes.labors () :=
  labors_floor_amended exC_tick (fun l => by norm_num [exCEcon]) ()

/-- **C6 (witness)**: the `exC` instance has demand `1 > 0` for its good. -/
theorem value_gate_smoothing_witness :
    (0:ℝ) < tickDemand exCCat exCEcon ()
    ∧ ((0.001 < rawSignal exCCat exCEcon () ∧ rawSignal exCCat exCEcon () < 1000 →
        exCRes.values () = some (0.8 * (exCEcon.values ()).getD (rawSignal exCCat exCEcon ())
          + 0.2 * rawSignal exCCat exCEcon ()))
      ∧ (¬(0.001 < rawSignal exCCat exCEcon () ∧ rawSignal exCCat exCEcon () < 1000) →
        exCRes.values () = none)) := by
  have hd : (0:ℝ) < tickDemand exCCat exCEcon () := by
    rw [exC_demand]
    norm_num
  exact ⟨hd, value_gate_smoothing () exC_tick hd⟩

/-- **C7 (witness)**: the `exE` catalog has a group with an empty input
list, and the tick on it aborts naming the labor of that group. -/
theorem empty_order_group_aborts_witness :
    (some (), ([] : List (Unit × ℝ))) ∈ exECat.orders
    ∧ tickSiteEconomy exECat 0 exAEcon 1 = Except.error (some ()) := by
  have hmem : (some (), ([] : List (Unit × ℝ))) ∈ exECat.orders := by
    simp [exECat]
  refine ⟨hmem, ?_⟩
  obtain ⟨olab', h1, h2⟩ := empty_order_group_aborts (some ()) hmem
  have : olab' = some () := by
    simpa [exECat] using h2
  rw [this] at h1
  exact h1

/-- **C8 (witness)**: on the `exB` instance (no orders at all) the demand of
the single good is `0` and the tick stores `values = none`. -/
theorem zero_demand_values_none_witness :
    tickDemand exBCat exBEcon () = 0 ∧ exBRes.values () = none := by
  refine ⟨exB_demand, ?_⟩
  exact zero_demand_values_none () exB_tick exB_demand
    (by norm_num [exBEcon]) (by rw [exB_supply])

/-- **C9 (witness)**: the demographic equation instantiated on the `exC`
instance with `dt = 1`. -/
theorem demographic_update_exact_witness :
    exCRes.pop = exCEcon.pop + 1 / 360 * exCEcon.pop
      * ((if 0 < tickSurplus exCCat exCEcon exCCat.food then 0.05 else 0)
         - 0.005)
      ∧ YEAR = 360 :=
  demographic_update_exact exC_tick

/-- **C10 (witness)**: population nonnegativity is preserved across a tick
of the driver length `TICK_PERIOD = 90` on the `exC` instance. -/
theorem pop_nonneg_preserved_witness : 0 ≤ exCResT.pop :=
  pop_nonneg_preserved exC_tickT (by norm_num [exCEcon])
    (by norm_num [TICK_PERIOD, MONTH])
    (by norm_num [TICK_PERIOD, YEAR, MONTH])

end Claims

end

end Sim2
